import Mathlib

/-!
Shallow embedding of the family-planning data-extraction service
(`backend/services/extract.py`, `backend/services/transform.py`,
`backend/services/utils/{extract,transform,load}.py`) and proofs about it.

Modelling conventions:
* Python `datetime.date` values are modelled by the `Dt` structure (year,
  month, day as naturals) with Python's lexicographic comparison.
* Python floats are modelled by `ℚ` (all claim-relevant arithmetic is exact).
* Polars dataframes are modelled as lists of typed row structures; inner
  joins are modelled by nested `flatMap`/`filter`, `group_by` by
  first-occurrence key grouping, `sort` by a stable insertion sort.
* `while` loops are modelled with an explicit fuel argument chosen as an
  upper bound on the number of iterations the Python loop performs.
* External effects (HTTP requests, DB reads/writes) are modelled by oracle
  parameters (per-call outcomes) and by an explicit event trace.
-/

/-- Decidable equality for `Except` results (used to evaluate the
embedded fallible functions on concrete inputs). -/
instance {ε α : Type} [DecidableEq ε] [DecidableEq α] :
    DecidableEq (Except ε α) := fun a b =>
  match a, b with
  | .ok x, .ok y =>
      if h : x = y then .isTrue (by rw [h]) else .isFalse (by simp [h])
  | .error x, .error y =>
      if h : x = y then .isTrue (by rw [h]) else .isFalse (by simp [h])
  | .ok _, .error _ => .isFalse (by simp)
  | .error _, .ok _ => .isFalse (by simp)

/-- Model of Python `datetime.date`: a calendar date. Validity side
conditions (month between 1 and 12, day at least 1) appear as hypotheses
of the theorems that need them. -/
structure Dt where
  year : Nat
  month : Nat
  day : Nat
deriving DecidableEq

/-- Python `date` comparison is lexicographic on (year, month, day). -/
def dtLe (a b : Dt) : Prop :=
  a.year < b.year ∨
    (a.year = b.year ∧
      (a.month < b.month ∨ (a.month = b.month ∧ a.day ≤ b.day)))

instance (a b : Dt) : Decidable (dtLe a b) := by
  unfold dtLe; exact inferInstance

/-- Strict lexicographic order on dates (used to state that a list of
periods is strictly increasing). -/
def dtLt (a b : Dt) : Prop :=
  a.year < b.year ∨
    (a.year = b.year ∧
      (a.month < b.month ∨ (a.month = b.month ∧ a.day < b.day)))

instance (a b : Dt) : Decidable (dtLt a b) := by
  unfold dtLt; exact inferInstance

/-- Month counter: number of the month on an absolute time line.  Used to
measure "inclusive count of calendar months" between two dates. -/
def monthIndex (d : Dt) : Nat := 12 * d.year + d.month

/-- `first_day_of_month` from `backend/services/utils/extract.py`:
`d.replace(day=1)`.  (The Python function renders the result with `str`;
we keep the date value, whose ISO rendering is that string.) -/
def first_day_of_month (d : Dt) : Dt := ⟨d.year, d.month, 1⟩

/-- The month-increment step of the `while` loop of
`generate_period_strings`: `date(year+1, 1, 1)` when `month == 12`, else
`date(year, month+1, 1)`. -/
def next_month (d : Dt) : Dt :=
  if d.month = 12 then ⟨d.year + 1, 1, 1⟩ else ⟨d.year, d.month + 1, 1⟩

/-- The `while start <= end` loop of `generate_period_strings`, with an
explicit fuel bound on the iteration count (the loop appends the current
date, then advances to the first day of the next month). -/
def period_loop : Nat → Dt → Dt → List Dt
  | 0, _, _ => []
  | fuel + 1, start, e =>
      if dtLe start e then start :: period_loop fuel (next_month start) e
      else []

/-- `generate_period_strings` from `backend/services/utils/extract.py`:
runs the month loop, then normalizes every collected date with
`first_day_of_month` (the Python list comprehension
`[first_day_of_month(item) for item in periods if periods]` maps the
normalizer over the list; its `if periods` guard does not depend on the
item and is vacuous).  The fuel `monthIndex e + 1 - monthIndex start`
is exactly the number of iterations the Python loop performs on valid
calendar dates. -/
def generate_period_strings (start e : Dt) : List Dt :=
  (period_loop (monthIndex e + 1 - monthIndex start) start e).map
    first_day_of_month

/-- Loop body of `iter_df_chunks` from
`backend/services/utils/transform.py` (`for i in range(0, df.height,
size): yield df.slice(i, size)`), with fuel bounding the number of
yielded chunks (one chunk consumes at least one row, so `l.length`
iterations always suffice for a positive `size`). -/
def iter_df_chunks_go (size : Nat) : Nat → List α → List (List α)
  | _, [] => []
  | 0, _ :: _ => []
  | fuel + 1, a :: as =>
      (a :: as).take size :: iter_df_chunks_go size fuel ((a :: as).drop size)

/-- `iter_df_chunks`: successive row chunks of at most `size` rows.
For `size = 0` the Python generator raises `ValueError` (from
`range(0, h, 0)`); callers always pass a positive size, and we return
`[]` in that degenerate case. -/
def iter_df_chunks (l : List α) (size : Nat) : List (List α) :=
  if size = 0 then [] else iter_df_chunks_go size l.length l

/-- Lexicographic strict order on character lists by code point; models
the ascending string order used by `DataFrame.sort` on string columns. -/
def chars_lt : List Char → List Char → Bool
  | [], [] => false
  | [], _ :: _ => true
  | _ :: _, [] => false
  | a :: as, b :: bs =>
      if a.toNat < b.toNat then true
      else if b.toNat < a.toNat then false
      else chars_lt as bs

/-- Strict string order (lexicographic by code point). -/
def str_lt (a b : String) : Bool := chars_lt a.toList b.toList

/-- `pat` occurs as a contiguous substring of `l`; models
`Series.str.contains` with a literal pattern. -/
def has_sub (pat : List Char) : List Char → Bool
  | [] => pat.isEmpty
  | c :: rest => pat.isPrefixOf (c :: rest) || has_sub pat rest

/-- String-level substring test. -/
def str_contains (s pat : String) : Bool := has_sub pat.toList s.toList

/-- One left-to-right scan deleting every occurrence of the two
category-option-combo suffix tokens, modelling
`str.replace_all(r"\.to0Pssxkq4S|\.hDCmaVTXH7W", "")` in
`extract_historical_data_from_khis` (both alternatives are literal
12-character tokens).  Fuel bounds the scan by the input length. -/
def strip_suffix_tokens_go : Nat → List Char → List Char
  | 0, l => l
  | _ + 1, [] => []
  | fuel + 1, c :: rest =>
      if ".to0Pssxkq4S".toList.isPrefixOf (c :: rest) then
        strip_suffix_tokens_go fuel ((c :: rest).drop 12)
      else if ".hDCmaVTXH7W".toList.isPrefixOf (c :: rest) then
        strip_suffix_tokens_go fuel ((c :: rest).drop 12)
      else c :: strip_suffix_tokens_go fuel rest

/-- Remove all occurrences of the two known suffix tokens from an
analytic identifier. -/
def strip_suffix_tokens (s : String) : String :=
  ⟨strip_suffix_tokens_go s.toList.length s.toList⟩

/-- A row of the parsed analytics CSV payload, with the fixed expected
columns `Data, Organisation unit, Period, Value` (`Value` read as
Float64 via `schema_overrides`, `Period` as a compact `YYYYMM`
integer). -/
structure RawCsvRow where
  data : String
  organisation_unit : String
  period : Nat
  value : ℚ
deriving DecidableEq

/-- A cleaned observation row with the canonical schema
`analytic (str), org_unit (str), period (date), value (float)`. -/
structure KhisRow where
  analytic : String
  org_unit : String
  period : Dt
  value : ℚ
deriving DecidableEq

/-- A dataframe with the canonical four-column layout: the column list
plus the typed rows. -/
structure KhisDf where
  columns : List String
  rows : List KhisRow
deriving DecidableEq

/-- The fallback frame built in `extract_historical_data_from_khis`:
zero rows, schema `analytic: String, org_unit: String, period: Date,
value: Float64`. -/
def sample_df_if_query_fails : KhisDf :=
  ⟨["analytic", "org_unit", "period", "value"], []⟩

/-- Parsing a compact `YYYYMM` integer (rendered as a digit string and
parsed with format `"%Y%m"`) into a date, first of month; fails (raising
inside `with_columns`, which the caller catches) when the month is out
of range. -/
def yyyymm_to_date (n : Nat) : Option Dt :=
  if 1 ≤ n % 100 ∧ n % 100 ≤ 12 then some ⟨n / 100, n % 100, 1⟩ else none

/-- The per-row effect of the rename/`with_columns` pipeline of
`extract_historical_data_from_khis`: rename the columns, parse the
period, strip the suffix tokens from the analytic. -/
def transform_csv_row (r : RawCsvRow) : Option KhisRow :=
  (yyyymm_to_date r.period).map fun d =>
    ⟨strip_suffix_tokens r.data, r.organisation_unit, d, r.value⟩

/-- `extract_historical_data_from_khis` from
`backend/services/utils/extract.py`.  The HTTP call is modelled by its
outcome `api` (`Except.error` = `requests` exception or non-2xx status,
`Except.ok content` = the response body); CSV parsing (`pl.read_csv`,
a library call) is modelled by the oracle `parse_csv`, whose `error`
case covers malformed payloads and unexpected schemas (both raise and
are caught by the same `except`).  Every failure path returns the
schema-compliant empty frame instead of raising. -/
def extract_historical_data_from_khis
    (api : Except String String)
    (parse_csv : String → Except String (List RawCsvRow)) : KhisDf :=
  match api with
  | .error _ => sample_df_if_query_fails
  | .ok content =>
      if content = "" then sample_df_if_query_fails
      else
        match parse_csv content with
        | .error _ => sample_df_if_query_fails
        | .ok raw_rows =>
            if raw_rows.length = 0 then sample_df_if_query_fails
            else
              match raw_rows.mapM transform_csv_row with
              | none => sample_df_if_query_fails
              | some rows => ⟨["analytic", "org_unit", "period", "value"], rows⟩

/-- Observable effects of one extraction run: the pre-cleanup `DELETE`,
each per-chunk remote KHIS query, and each successful table append. -/
inductive ExtractEvent where
  | deletePeriods (table : String) (periods : List Dt)
  | khisQuery (chunkIndex : Nat)
  | appendRows (table : String) (rows : List KhisRow)
deriving DecidableEq

/-- Result of `KhisHistoricalDataExtractor.run`: the emitted event trace
and whether the final success log line was reached. -/
structure RunResult where
  events : List ExtractEvent
  completed : Bool
deriving DecidableEq

/-- `delete_existing_data_for_periods` from
`backend/services/utils/load.py`: no-op for an empty period list or a
missing table; otherwise issues the scoped `DELETE`.  A failing `DELETE`
(`delete_ok = false`) rolls back (no event) and re-raises, modelled as
`Except.error`. -/
def delete_existing_data_for_periods (periods : List Dt)
    (table : String) (table_exists delete_ok : Bool) :
    Except String (List ExtractEvent) :=
  if periods.isEmpty then .ok []
  else if !table_exists then .ok []
  else if delete_ok then .ok [.deletePeriods table periods]
  else .error "Failed to delete existing periods"

/-- `KhisHistoricalDataExtractor._pre_cleanup`: skips when no target
periods were computed, otherwise delegates to the `DELETE` helper. -/
def pre_cleanup (target_periods : List Dt) (table : String)
    (table_exists delete_ok : Bool) : Except String (List ExtractEvent) :=
  if target_periods.isEmpty then .ok []
  else delete_existing_data_for_periods target_periods table table_exists delete_ok

/-- Events produced by the loop body for batch `i` of
`KhisHistoricalDataExtractor.run`: the remote query (whose outcome is
the oracle `api i`, parsed by `parse_csv`), then — only when the batch
produced rows — the incremental append.  `save_df_to_db` catches and
logs its own write errors (`save_ok i = false` means the write raised:
no rows land and nothing propagates), so the loop body never raises. -/
def run_batch_events (table : String)
    (api : Nat → Except String String)
    (parse_csv : String → Except String (List RawCsvRow))
    (save_ok : Nat → Bool) (i : Nat) : List ExtractEvent :=
  let batch_data := extract_historical_data_from_khis (api i) parse_csv
  ExtractEvent.khisQuery i ::
    (if batch_data.rows.length > 0 then
      (if save_ok i then [ExtractEvent.appendRows table batch_data.rows] else [])
    else [])

/-- `KhisHistoricalDataExtractor.run` from `backend/services/extract.py`:
compute the target periods, abort before any cleanup or write when the
organisation-units query returned no ids, run the one-time cleanup
(aborting the run if it raises), then process the facility chunks in
order, appending each non-empty batch.  `completed = true` means the
final success log line was reached. -/
def khis_extractor_run (org_units : List String) (chunk_size : Nat)
    (start_date end_date : Dt) (table : String)
    (table_exists delete_ok : Bool)
    (api : Nat → Except String String)
    (parse_csv : String → Except String (List RawCsvRow))
    (save_ok : Nat → Bool) : RunResult :=
  let target_periods := generate_period_strings start_date end_date
  if org_units.length = 0 then ⟨[], false⟩
  else
    match pre_cleanup target_periods table table_exists delete_ok with
    | .error _ => ⟨[], false⟩
    | .ok cleanup_events =>
        let chunks := iter_df_chunks org_units chunk_size
        ⟨cleanup_events ++
          (List.range chunks.length).flatMap
            (run_batch_events table api parse_csv save_ok),
         true⟩

/-- The program enumeration from `backend/core/enums.py`. -/
inductive Program where
  | FP
  | MNCH
deriving DecidableEq

/-- The `.value` string of a `Program` member. -/
def Program.str : Program → String
  | .FP => "FP"
  | .MNCH => "MNCH"

/-- A row of the raw-data query of
`DataTransformationPipeline._fetch_pipeline_data_from_db`
(`SELECT analytic as analytic_id, org_unit, period, value FROM <input>`). -/
structure RawObs where
  analytic_id : String
  org_unit : String
  period : Dt
  value : ℚ
deriving DecidableEq

/-- A row of the organisation-units lookup
(`SELECT facility_id as org_unit, county_name FROM organisation_units`). -/
structure OrgCountyRow where
  org_unit : String
  county_name : String
deriving DecidableEq

/-- A row of the data-elements metadata
(`SELECT id as analytic_id, name as analytic_name FROM data_elements`). -/
structure ElementRow where
  analytic_id : String
  analytic_name : String
deriving DecidableEq

/-- A joined observation after the two inner joins and `drop("org_unit")`
in `DataTransformationPipeline._apply_transformations`. -/
structure JoinedObs where
  analytic_id : String
  period : Dt
  value : ℚ
  county_name : String
  analytic_name : String
deriving DecidableEq

/-- An aggregate row `(analytic, method, org_unit, period, value)`. -/
structure AggRow where
  analytic : String
  method : String
  org_unit : String
  period : Dt
  value : ℚ
deriving DecidableEq

/-- `DataTransformationPipeline.ANALYTIC_ID_MAP` applied with
`replace_strict(..., default="Unknown Product")`. -/
def analytic_id_map (s : String) : String :=
  if s = "dl4JcBnxu0X" ∨ s = "uHM6lzLXDBd" then "POPs"
  else if s = "tfPZ6sGgh4q" ∨ s = "hRktPfPEegP" then "Non-Hormonal IUCD"
  else if s = "cV4qoKSYiBs" ∨ s = "AVDzuypqGt9" then "Male Condoms"
  else if s = "APbXNRovb5w" then "Levoplant"
  else if s = "CJdFYcZ1zOq" ∨ s = "XgJfT71Unkn" then "Implanon"
  else if s = "MsS41X1GEFr" then "Jadelle"
  else if s = "zXbxl6y97mi" ∨ s = "Wv02gixbRpT" then "Hormonal IUCD"
  else if s = "Fxb4iVJdw2g" ∨ s = "AR7RhdC90IV" then "Female Condoms"
  else if s = "paDQStynGGD" ∨ s = "qaBPR9wbWku" then "EC Pills"
  else if s = "NMCIxSeGpS3" ∨ s = "hXa1xyUMfTa" then "DMPA-SC"
  else if s = "PgQIx7Hq1kp" ∨ s = "J6qnTev1LXw" then "DMPA-IM"
  else if s = "fYCo4peO0yE" ∨ s = "bGGT0F7iRxt" then "Cycle Beads"
  else if s = "BQmcVE8fex4" ∨ s = "hH9gmEmEhH4" then "COCs"
  else if s = "TUHzoPGLM3t" then "2 Rod"
  else if s = "GOFxghdlf5n" then "Chlorhexidine Gel"
  else if s = "qoEFejcajz1" then "Tetracycline Eye Ointment"
  else if s = "WbDKZsPHAOK" then "Magnesium Sulphate Injection"
  else if s = "pxdnKL8X8aP" then "Iron and Folic Acid Supplementation"
  else if s = "BT8vV7Z7anH" then "Gentamicin Injection"
  else if s = "QYT9nPwdqOz" then "Benzyl Penicillin Injection"
  else if s = "rEQd6IDeXWT" then "Oxytocin Injection"
  else "Unknown Product"

/-- The method heuristic of `_apply_transformations`: element names
containing "711" are Service, those matching "(747|647)" are
Consumption, anything else is Unknown Method (checked in that order). -/
def derive_method (analytic_name : String) : String :=
  if str_contains analytic_name "711" then "Service"
  else if str_contains analytic_name "747" || str_contains analytic_name "647" then
    "Consumption"
  else "Unknown Method"

/-- `DataTransformationPipeline.FP_SERVICE_ADJUSTMENTS` applied with
`replace_strict(..., default=1.0)`. -/
def fp_service_adjustments (analytic : String) : ℚ :=
  if analytic = "COCs" then 1.25
  else if analytic = "POPs" then 0.5
  else if analytic = "Female Condoms" then 10.0
  else if analytic = "Male Condoms" then 10.0
  else 1.0

/-- The value-adjustment expression of `_apply_transformations`:
`when(method == "Service").then(value * factor).otherwise(value)`.
Note that the surrounding Python method does not consult
`self.program` here: the same expression runs for FP and MNCH runs. -/
def apply_service_adjustment (method analytic : String) (v : ℚ) : ℚ :=
  if method = "Service" then v * fp_service_adjustments analytic else v

/-- Group keys in order of first occurrence (models the grouping of
`DataFrame.group_by`; polars does not promise a group order, and any
claim we settle about grouped output is insensitive to this choice —
the county frame is re-sorted immediately after grouping). -/
def dedup_first {K : Type} [DecidableEq K] : List K → List K
  | [] => []
  | k :: ks => k :: (dedup_first ks).filter (fun x => x ≠ k)

/-- Sort key of an `AggRow` as used in claims: `(analytic, method,
org_unit, period)`. -/
def agg_key (r : AggRow) : String × String × String × Dt :=
  (r.analytic, r.method, r.org_unit, r.period)

/-- `group_by(["analytic", "method", "org_unit", "period"]).agg(sum)`:
one row per distinct key, whose value is the sum of the group. -/
def group_sum_by_key (l : List AggRow) : List AggRow :=
  (dedup_first (l.map agg_key)).map fun k =>
    ⟨k.1, k.2.1, k.2.2.1, k.2.2.2,
      ((l.filter (fun r => agg_key r = k)).map (fun r => r.value)).sum⟩

/-- Strict lexicographic order on dates, as a Bool. -/
def dt_lt_b (a b : Dt) : Bool :=
  if a.year < b.year then true
  else if b.year < a.year then false
  else if a.month < b.month then true
  else if b.month < a.month then false
  else decide (a.day < b.day)

/-- Strict lexicographic order on the `(analytic, method, org_unit,
period)` sort key. -/
def agg_row_lt (a b : AggRow) : Bool :=
  if str_lt a.analytic b.analytic then true
  else if str_lt b.analytic a.analytic then false
  else if str_lt a.method b.method then true
  else if str_lt b.method a.method then false
  else if str_lt a.org_unit b.org_unit then true
  else if str_lt b.org_unit a.org_unit then false
  else dt_lt_b a.period b.period

/-- Ascending (non-strict) comparison for the multi-column sort. -/
def agg_row_le (a b : AggRow) : Bool := !agg_row_lt b a

/-- Stable insertion into a sorted list (insert before the first
element that is not smaller). -/
def insert_sorted (r : AggRow) : List AggRow → List AggRow
  | [] => [r]
  | x :: xs => if agg_row_le r x then r :: x :: xs else x :: insert_sorted r xs

/-- Stable ascending sort by `(analytic, method, org_unit, period)`;
models `DataFrame.sort([...])`. -/
def sort_by_key : List AggRow → List AggRow
  | [] => []
  | x :: xs => insert_sorted x (sort_by_key xs)

/-- Adjacent-pairs sortedness check for the four-column sort key. -/
def is_sorted_by_key : List AggRow → Bool
  | [] => true
  | [_] => true
  | a :: b :: t => agg_row_le a b && is_sorted_by_key (b :: t)

/-- `DataTransformationPipeline._apply_transformations`: inner-join the
raw observations to the county lookup and the element metadata, map the
analytic id to its standardized name, derive the method, apply the
Service-value adjustment (for every program — the method does not test
`self.program`), aggregate to county, and sort. -/
def apply_transformations (raw_df : List RawObs)
    (org_units : List OrgCountyRow) (elements : List ElementRow) :
    List AggRow :=
  let joined_df :=
    raw_df.flatMap fun o =>
      (org_units.filter (fun u => u.org_unit = o.org_unit)).flatMap fun u =>
        (elements.filter (fun e => e.analytic_id = o.analytic_id)).map fun e =>
          (⟨o.analytic_id, o.period, o.value, u.county_name, e.analytic_name⟩ :
            JoinedObs)
  let county_rows : List AggRow :=
    joined_df.map fun j =>
      let analytic := analytic_id_map j.analytic_id
      let method := derive_method j.analytic_name
      ⟨analytic, method, j.county_name, j.period,
        apply_service_adjustment method analytic j.value⟩
  sort_by_key (group_sum_by_key county_rows)

/-- `DataTransformationPipeline._generate_national_aggregates`: group
the county frame by `(analytic, method, period)`, sum, and set
`org_unit = "Kenya"`. -/
def generate_national_aggregates (county_df : List AggRow) : List AggRow :=
  (dedup_first (county_df.map fun r => (r.analytic, r.method, r.period))).map
    fun k =>
      ⟨k.1, k.2.1, "Kenya", k.2.2,
        ((county_df.filter
            (fun r => (r.analytic, r.method, r.period) = k)).map
          (fun r => r.value)).sum⟩

/-- The with_columns rewrite building the Jadelle half of the split. -/
def jadelle_of (ratio : ℚ) (r : AggRow) : AggRow :=
  ⟨"Jadelle", r.method, r.org_unit, r.period, r.value * ratio⟩

/-- The with_columns rewrite building the Levoplant half of the split. -/
def levoplant_of (ratio : ℚ) (r : AggRow) : AggRow :=
  ⟨"Levoplant", r.method, r.org_unit, r.period, r.value * (1 - ratio)⟩

/-- The target predicate of the split: `method == "Service"` and
`analytic == "2 Rod"`. -/
def is_two_rod_service (r : AggRow) : Bool :=
  decide (r.method = "Service") && decide (r.analytic = "2 Rod")

/-- `DataTransformationPipeline._process_two_rod_split`: validate the
ratio, return the frame unchanged when no target rows exist, otherwise
replace every `2 Rod`/Service row by its Jadelle and Levoplant halves
(non-target rows first, then all Jadelle rows, then all Levoplant
rows, as built by `pl.concat`). -/
def process_two_rod_split (df : List AggRow) (jadelle_ratio : ℚ := 0.8) :
    Except String (List AggRow) :=
  if ¬(0 ≤ jadelle_ratio ∧ jadelle_ratio ≤ 1) then
    .error "jadelle_ratio must be between 0.0 and 1.0"
  else
    let two_rod_df := df.filter is_two_rod_service
    if two_rod_df.isEmpty then .ok df
    else
      .ok (df.filter (fun r => !is_two_rod_service r) ++
        two_rod_df.map (jadelle_of jadelle_ratio) ++
        two_rod_df.map (levoplant_of jadelle_ratio))

/-- The transform/aggregate portion of `DataTransformationPipeline.run`:
county aggregation, national roll-up, concatenation, and — for FP runs
only — the 2 Rod split (with its default ratio 0.8). -/
def transform_core (program : Program) (raw_df : List RawObs)
    (org_units : List OrgCountyRow) (elements : List ElementRow) :
    Except String (List AggRow) :=
  let county_df := apply_transformations raw_df org_units elements
  let national_df := generate_national_aggregates county_df
  let final_df := county_df ++ national_df
  if program = Program.FP then process_two_rod_split final_df 0.8
  else .ok final_df

/-- A persistence write event: table, write mode, rows. -/
inductive LoadEvent where
  | write (table : String) (mode : String) (rows : List AggRow)
deriving DecidableEq

/-- `save_df_to_db` from `backend/services/utils/load.py`.  The body
wraps `df.write_database` in `try/except` and only **logs** a failure
(`write_ok = false` means the write raised): no event is produced and —
crucially — no error propagates to the caller; the function always
returns normally. -/
def save_df_to_db (write_ok : Bool) (df : List AggRow)
    (table mode : String) : List LoadEvent :=
  if write_ok then [LoadEvent.write table mode df] else []

/-- Result of one `DataTransformationPipeline.run`: the persistence
events and whether the final `logger.success` line was reached. -/
structure PipelineResult where
  events : List LoadEvent
  success_logged : Bool
deriving DecidableEq

/-- The `try` body of `DataTransformationPipeline.run`: fetch (its
outcome is the oracle `fetched`), transform, aggregate, split, save
(via the error-swallowing `save_df_to_db`), then log success. -/
def pipeline_run_body (program : Program)
    (fetched : Except String (List RawObs × List OrgCountyRow × List ElementRow))
    (write_ok : Bool) (output_table : String) :
    Except String PipelineResult :=
  match fetched with
  | .error e => .error e
  | .ok data =>
      match transform_core program data.1 data.2.1 data.2.2 with
      | .error e => .error e
      | .ok final_df =>
          .ok ⟨save_df_to_db write_ok final_df output_table "replace", true⟩

/-- `DataTransformationPipeline.run`: any exception raised inside the
`try` body is wrapped as
`RuntimeError(f"<program> pipeline failed: <exc>")`. -/
def pipeline_run (program : Program)
    (fetched : Except String (List RawObs × List OrgCountyRow × List ElementRow))
    (write_ok : Bool) (output_table : String) :
    Except String PipelineResult :=
  match pipeline_run_body program fetched write_ok output_table with
  | .ok r => .ok r
  | .error e => .error (Program.str program ++ " pipeline failed: " ++ e)

/-- An organisation-unit row (`id, name, parent_id, level, code`), the
input long format of `make_orgunits_hierarchy`. -/
structure OrgRow where
  id : String
  name : String
  parent_id : String
  level : Nat
  code : String
deriving DecidableEq

/-- A wide hierarchy row: the facility together with its resolved
ancestor chain (the source's renamed columns `facility_*, ward_*,
sub_county_*, county_*, country_*` are the fields of these five
component rows). -/
structure HierRow where
  facility : OrgRow
  ward : OrgRow
  sub_county : OrgRow
  county : OrgRow
  country : OrgRow
deriving DecidableEq

/-- `make_orgunits_hierarchy` from `backend/services/utils/transform.py`:
split the input by `level` into the five per-level frames, then
inner-join level 5 → 4 → 3 → 2 → 1 along the `parent_id` chain (the
renamed join columns `ward_id`, `sub_county_id`, `county_id`,
`country_id` are the parent ids of the previous level). -/
def make_orgunits_hierarchy (df : List OrgRow) : List HierRow :=
  let level_5_df := df.filter (fun r => r.level = 5)
  let level_4_df := df.filter (fun r => r.level = 4)
  let level_3_df := df.filter (fun r => r.level = 3)
  let level_2_df := df.filter (fun r => r.level = 2)
  let level_1_df := df.filter (fun r => r.level = 1)
  level_5_df.flatMap fun f =>
    (level_4_df.filter (fun w => w.id = f.parent_id)).flatMap fun w =>
      (level_3_df.filter (fun s => s.id = w.parent_id)).flatMap fun s =>
        (level_2_df.filter (fun c => c.id = s.parent_id)).flatMap fun c =>
          (level_1_df.filter (fun n => n.id = c.parent_id)).map fun n =>
            (⟨f, w, s, c, n⟩ : HierRow)

/-- A level-5 row's ancestor chain resolves completely: matching rows
exist at levels 4, 3, 2 and 1, linked by `parent_id`. -/
def chain_resolves (df : List OrgRow) (f : OrgRow) : Prop :=
  ∃ w ∈ df, w.level = 4 ∧ w.id = f.parent_id ∧
    ∃ s ∈ df, s.level = 3 ∧ s.id = w.parent_id ∧
      ∃ c ∈ df, c.level = 2 ∧ c.id = s.parent_id ∧
        ∃ n ∈ df, n.level = 1 ∧ n.id = c.parent_id

instance (df : List OrgRow) (f : OrgRow) : Decidable (chain_resolves df f) := by
  unfold chain_resolves; exact inferInstance

/-- The per-level id-uniqueness part of a well-formed organisation-unit
tree: within each of levels 4, 3, 2 and 1, row ids are distinct (so
each join step matches at most one parent). -/
def orgunits_well_formed (df : List OrgRow) : Prop :=
  ((df.filter (fun r => r.level = 4)).map (fun r => r.id)).Nodup ∧
  ((df.filter (fun r => r.level = 3)).map (fun r => r.id)).Nodup ∧
  ((df.filter (fun r => r.level = 2)).map (fun r => r.id)).Nodup ∧
  ((df.filter (fun r => r.level = 1)).map (fun r => r.id)).Nodup

instance (df : List OrgRow) : Decidable (orgunits_well_formed df) := by
  unfold orgunits_well_formed; exact inferInstance

theorem iter_df_chunks_go_flatten {α : Type} (size : Nat) (hs : 0 < size) :
    ∀ (fuel : Nat) (l : List α), l.length ≤ fuel →
      (iter_df_chunks_go size fuel l).flatten = l := by
  intro fuel
  induction fuel with
  | zero =>
      intro l hl
      have : l = [] := List.eq_nil_of_length_eq_zero (Nat.le_zero.mp hl)
      subst this
      rfl
  | succ n ih =>
      intro l hl
      cases l with
      | nil => rfl
      | cons a as =>
          simp only [iter_df_chunks_go, List.flatten_cons]
          rw [ih ((a :: as).drop size) (by simp at hl ⊢; omega)]
          exact List.take_append_drop size (a :: as)

theorem iter_df_chunks_go_length {α : Type} (size : Nat) (hs : 0 < size) :
    ∀ (fuel : Nat) (l : List α), l.length ≤ fuel →
      (iter_df_chunks_go size fuel l).length = (l.length + size - 1) / size := by
  intro fuel
  induction fuel with
  | zero =>
      intro l hl
      have : l = [] := List.eq_nil_of_length_eq_zero (Nat.le_zero.mp hl)
      subst this
      simp [iter_df_chunks_go, Nat.div_eq_of_lt (by omega : size - 1 < size)]
  | succ n ih =>
      intro l hl
      cases l with
      | nil => simp [iter_df_chunks_go, Nat.div_eq_of_lt (by omega : size - 1 < size)]
      | cons a as =>
          simp only [iter_df_chunks_go, List.length_cons]
          rw [ih ((a :: as).drop size) (by simp at hl ⊢; omega)]
          simp only [List.length_drop, List.length_cons]
          rcases Nat.lt_or_ge (as.length + 1) size with h | h
          · have h1 : as.length + 1 - size = 0 := by omega
            have h3 : (as.length + 1 + size - 1) / size = 1 := by
              apply Nat.div_eq_of_lt_le <;> omega
            rw [h1, h3]
            simp only [Nat.zero_add]
            rw [Nat.div_eq_of_lt (by omega : size - 1 < size)]
          · have h1 : as.length + 1 - size + size - 1 = as.length := by omega
            have h2 : as.length + 1 + size - 1 = as.length + size := by omega
            rw [h1, h2, Nat.add_div_right _ hs]

theorem iter_df_chunks_go_sizes {α : Type} (size : Nat) :
    ∀ (fuel : Nat) (l : List α) (c : List α),
      c ∈ iter_df_chunks_go size fuel l → c.length ≤ size := by
  intro fuel
  induction fuel with
  | zero =>
      intro l c hc
      cases l <;> simp [iter_df_chunks_go] at hc
  | succ n ih =>
      intro l c hc
      cases l with
      | nil => simp [iter_df_chunks_go] at hc
      | cons a as =>
          simp only [iter_df_chunks_go, List.mem_cons] at hc
          rcases hc with rfl | hc
          · simp only [List.length_take]
            exact Nat.min_le_left size (a :: as).length
          · exact ih _ _ hc

/-- C4 -/
theorem iter_df_chunks_spec {α : Type} (l : List α) (size : Nat)
    (hs : 0 < size) :
    (iter_df_chunks l size).length = (l.length + size - 1) / size ∧
    (∀ c ∈ iter_df_chunks l size, c.length ≤ size) ∧
    (iter_df_chunks l size).flatten = l := by
  unfold iter_df_chunks
  rw [if_neg (by omega)]
  exact ⟨iter_df_chunks_go_length size hs l.length l le_rfl,
    fun c hc => iter_df_chunks_go_sizes size l.length l c hc,
    iter_df_chunks_go_flatten size hs l.length l le_rfl⟩

/-- C4 witness -/
theorem iter_df_chunks_spec_witness :
    0 < 2 ∧
    ((iter_df_chunks ["a", "b", "c", "d", "e"] 2).length = (5 + 2 - 1) / 2 ∧
      (∀ c ∈ iter_df_chunks ["a", "b", "c", "d", "e"] 2, c.length ≤ 2) ∧
      (iter_df_chunks ["a", "b", "c", "d", "e"] 2).flatten =
        ["a", "b", "c", "d", "e"]) :=
  ⟨by decide, iter_df_chunks_spec ["a", "b", "c", "d", "e"] 2 (by decide)⟩

/-- The month has a calendar-valid value. -/
def valid_month (d : Dt) : Prop := 1 ≤ d.month ∧ d.month ≤ 12

theorem monthIndex_next (d : Dt) :
    monthIndex (next_month d) = monthIndex d + 1 := by
  unfold next_month monthIndex
  split
  · simp_all
    omega
  · simp
    omega

theorem valid_month_next (d : Dt) (h : valid_month d) :
    valid_month (next_month d) := by
  unfold next_month valid_month at *
  split <;> simp <;> omega

theorem next_month_day (d : Dt) : (next_month d).day = 1 := by
  unfold next_month
  split <;> rfl

theorem dtLe_imp_monthIndex_le (a b : Dt) (ha : valid_month a)
    (hb : valid_month b) (h : dtLe a b) :
    monthIndex a ≤ monthIndex b := by
  unfold dtLe at h
  unfold valid_month at ha hb
  unfold monthIndex
  omega

theorem monthIndex_le_imp_dtLe (a b : Dt) (ha : valid_month a)
    (hb : valid_month b) (hda : a.day = 1) (hdb : 1 ≤ b.day)
    (h : monthIndex a ≤ monthIndex b) : dtLe a b := by
  unfold valid_month at ha hb
  unfold monthIndex at h
  unfold dtLe
  omega

theorem period_loop_length (e : Dt) (he : valid_month e) (hed : 1 ≤ e.day) :
    ∀ (n : Nat) (s : Dt), valid_month s → dtLe s e →
      n = monthIndex e + 1 - monthIndex s → (period_loop n s e).length = n := by
  intro n
  induction n with
  | zero =>
      intro s hs hle hn
      have := dtLe_imp_monthIndex_le s e hs he hle
      omega
  | succ m ih =>
      intro s hs hle hn
      simp only [period_loop, if_pos hle, List.length_cons]
      rcases Nat.eq_zero_or_pos m with rfl | hm
      · cases h : period_loop 0 (next_month s) e
        · rfl
        · simp [period_loop] at h
      · have hidx := dtLe_imp_monthIndex_le s e hs he hle
        have hs' := valid_month_next s hs
        have hle' : dtLe (next_month s) e := by
          apply monthIndex_le_imp_dtLe _ _ hs' he (next_month_day s) hed
          rw [monthIndex_next]
          omega
        rw [ih (next_month s) hs' hle' (by rw [monthIndex_next]; omega)]

theorem first_day_lt_next (d : Dt) :
    dtLt (first_day_of_month d) (first_day_of_month (next_month d)) := by
  unfold first_day_of_month next_month dtLt
  split
  · simp
  · simp

theorem period_loop_chain (e : Dt) :
    ∀ (n : Nat) (s : Dt),
      List.Chain' dtLt ((period_loop n s e).map first_day_of_month) := by
  intro n
  induction n with
  | zero => intro s; simp [period_loop]
  | succ m ih =>
      intro s
      by_cases h : dtLe s e
      · simp only [period_loop, if_pos h, List.map_cons]
        rw [List.chain'_cons']
        refine ⟨?_, ih (next_month s)⟩
        intro y hy
        cases m with
        | zero => simp [period_loop] at hy
        | succ k =>
            simp only [period_loop] at hy
            by_cases h' : dtLe (next_month s) e
            · rw [if_pos h'] at hy
              simp only [List.map_cons, List.head?_cons, Option.mem_def,
                Option.some.injEq] at hy
              rw [← hy]
              exact first_day_lt_next s
            · rw [if_neg h'] at hy
              simp at hy
      · simp [period_loop, if_neg h]

/-- C5: for calendar-valid dates, the period planner emits, in strictly
increasing order, one first-of-month date per calendar month of the
inclusive range (so exactly one period when the dates are equal), and
the empty list when `start > end`. -/
theorem generate_period_strings_spec (s e : Dt)
    (hs : 1 ≤ s.month ∧ s.month ≤ 12)
    (he : 1 ≤ e.month ∧ e.month ≤ 12) (hed : 1 ≤ e.day) :
    (dtLe s e →
      generate_period_strings s e ≠ [] ∧
      (generate_period_strings s e).length = monthIndex e + 1 - monthIndex s ∧
      (∀ p ∈ generate_period_strings s e, p.day = 1) ∧
      List.Chain' dtLt (generate_period_strings s e)) ∧
    (s = e → generate_period_strings s e = [⟨s.year, s.month, 1⟩]) ∧
    (¬ dtLe s e → generate_period_strings s e = []) := by
  refine ⟨?_, ?_, ?_⟩
  · intro hle
    have hlen : (generate_period_strings s e).length =
        monthIndex e + 1 - monthIndex s := by
      unfold generate_period_strings
      rw [List.length_map]
      exact period_loop_length e he hed _ s hs hle rfl
    have hidx := dtLe_imp_monthIndex_le s e hs he hle
    refine ⟨?_, hlen, ?_, period_loop_chain e _ s⟩
    · intro hnil
      rw [hnil] at hlen
      simp at hlen
      omega
    · intro p hp
      unfold generate_period_strings at hp
      rw [List.mem_map] at hp
      obtain ⟨q, _, rfl⟩ := hp
      rfl
  · intro heq
    subst heq
    have h1 : monthIndex s + 1 - monthIndex s = 1 := by omega
    have hss : dtLe s s := Or.inr ⟨rfl, Or.inr ⟨rfl, le_rfl⟩⟩
    unfold generate_period_strings
    rw [h1]
    simp [period_loop, if_pos hss, first_day_of_month]
  · intro hn
    unfold generate_period_strings
    cases h : monthIndex e + 1 - monthIndex s with
    | zero => rfl
    | succ k => simp [period_loop, if_neg hn]

/-- C5 witness: a concrete four-month range (November 2024 to February
2025), instantiating every hypothesis of the period-planner theorem. -/
theorem generate_period_strings_spec_witness :
    ((1 ≤ (11 : Nat) ∧ (11 : Nat) ≤ 12) ∧ (1 ≤ (2 : Nat) ∧ (2 : Nat) ≤ 12) ∧
      1 ≤ (10 : Nat) ∧ dtLe ⟨2024, 11, 5⟩ ⟨2025, 2, 10⟩) ∧
    (generate_period_strings ⟨2024, 11, 5⟩ ⟨2025, 2, 10⟩ ≠ [] ∧
      (generate_period_strings ⟨2024, 11, 5⟩ ⟨2025, 2, 10⟩).length =
        monthIndex ⟨2025, 2, 10⟩ + 1 - monthIndex ⟨2024, 11, 5⟩ ∧
      (∀ p ∈ generate_period_strings ⟨2024, 11, 5⟩ ⟨2025, 2, 10⟩, p.day = 1) ∧
      List.Chain' dtLt (generate_period_strings ⟨2024, 11, 5⟩ ⟨2025, 2, 10⟩)) :=
  ⟨⟨by decide, by decide, by decide, by decide⟩,
    (generate_period_strings_spec ⟨2024, 11, 5⟩ ⟨2025, 2, 10⟩
      (by decide) (by decide) (by decide)).1 (by decide)⟩

/-- C3: every failure class of the remote fetch — transport error, empty
body, CSV parse error or unexpected schema (both raise in `pl.read_csv`
and are caught), zero parsed rows, or a row whose period fails date
parsing (raising in `with_columns`, also caught) — yields the zero-row
frame with exactly the canonical four columns instead of an error
(`extract_historical_data_from_khis` is total: it never propagates an
exception to the caller). -/
theorem extract_failure_returns_empty_canonical
    (api : Except String String)
    (parse_csv : String → Except String (List RawCsvRow))
    (h : (∃ m, api = .error m) ∨ api = .ok "" ∨
      (∃ c m, api = .ok c ∧ parse_csv c = .error m) ∨
      (∃ c, api = .ok c ∧ parse_csv c = .ok []) ∨
      (∃ c rows, api = .ok c ∧ parse_csv c = .ok rows ∧
        rows.mapM transform_csv_row = none)) :
    extract_historical_data_from_khis api parse_csv =
      sample_df_if_query_fails ∧
    (extract_historical_data_from_khis api parse_csv).rows = [] ∧
    (extract_historical_data_from_khis api parse_csv).columns =
      ["analytic", "org_unit", "period", "value"] := by
  have hmain : extract_historical_data_from_khis api parse_csv =
      sample_df_if_query_fails := by
    rcases h with ⟨m, rfl⟩ | rfl | ⟨c, m, rfl, hp⟩ | ⟨c, rfl, hp⟩ |
      ⟨c, rows, rfl, hp, hm⟩
    · rfl
    · rfl
    · by_cases hc : c = ""
      · simp [extract_historical_data_from_khis, hc]
      · simp [extract_historical_data_from_khis, hc, hp]
    · by_cases hc : c = ""
      · simp [extract_historical_data_from_khis, hc]
      · simp [extract_historical_data_from_khis, hc, hp]
    · by_cases hc : c = ""
      · simp [extract_historical_data_from_khis, hc]
      · by_cases hr : rows.length = 0
        · simp [extract_historical_data_from_khis, hc, hp, hr]
        · have hm' : List.mapM.loop transform_csv_row rows [] = none := hm
          simp [extract_historical_data_from_khis, hc, hp, hr, hm']
  exact ⟨hmain, by rw [hmain]; rfl, by rw [hmain]; rfl⟩

/-- C3 witness: a transport failure on a concrete call. -/
theorem extract_failure_returns_empty_canonical_witness :
    ((∃ m, (Except.error "connection timed out" : Except String String) =
        .error m) ∨
      (Except.error "connection timed out" : Except String String) = .ok "" ∨
      (∃ c m, (Except.error "connection timed out" : Except String String) =
          .ok c ∧
        (fun (_ : String) =>
          (Except.ok [] : Except String (List RawCsvRow))) c = .error m) ∨
      (∃ c, (Except.error "connection timed out" : Except String String) =
          .ok c ∧
        (fun (_ : String) =>
          (Except.ok [] : Except String (List RawCsvRow))) c = .ok []) ∨
      (∃ c rows,
        (Except.error "connection timed out" : Except String String) = .ok c ∧
        (fun (_ : String) =>
          (Except.ok [] : Except String (List RawCsvRow))) c = .ok rows ∧
        rows.mapM transform_csv_row = none)) ∧
    (extract_historical_data_from_khis (.error "connection timed out")
        (fun _ => .ok []) = sample_df_if_query_fails ∧
      (extract_historical_data_from_khis (.error "connection timed out")
          (fun _ => .ok [])).rows = [] ∧
      (extract_historical_data_from_khis (.error "connection timed out")
          (fun _ => .ok [])).columns =
        ["analytic", "org_unit", "period", "value"]) :=
  ⟨Or.inl ⟨"connection timed out", rfl⟩,
    extract_failure_returns_empty_canonical (.error "connection timed out")
      (fun _ => .ok []) (Or.inl ⟨"connection timed out", rfl⟩)⟩

/-- C10: when the organisation-units query yields no facility ids, the
extractor returns before the cleanup and before any write: the event
trace is empty (no `DELETE` for the target periods, no append — the
destination table is untouched). -/
theorem khis_extractor_run_no_orgunits (chunk_size : Nat)
    (start_date end_date : Dt) (table : String) (table_exists delete_ok : Bool)
    (api : Nat → Except String String)
    (parse_csv : String → Except String (List RawCsvRow))
    (save_ok : Nat → Bool) :
    khis_extractor_run [] chunk_size start_date end_date table table_exists
      delete_ok api parse_csv save_ok = ⟨[], false⟩ := rfl

theorem pre_cleanup_ok (periods : List Dt) (table : String)
    (table_exists delete_ok : Bool)
    (h : periods.isEmpty = true ∨ table_exists = false ∨ delete_ok = true) :
    ∃ evs, pre_cleanup periods table table_exists delete_ok = .ok evs := by
  unfold pre_cleanup delete_existing_data_for_periods
  rcases h with h | h | h
  · exact ⟨[], by rw [if_pos h]⟩
  · by_cases hp : periods.isEmpty
    · exact ⟨[], by rw [if_pos hp]⟩
    · exact ⟨[], by rw [if_neg hp, if_neg hp, h]; rfl⟩
  · by_cases hp : periods.isEmpty
    · exact ⟨[], by rw [if_pos hp]⟩
    · by_cases ht : table_exists
      · refine ⟨[.deletePeriods table periods], ?_⟩
        rw [if_neg hp, if_neg hp, ht, h]
        rfl
      · refine ⟨[], ?_⟩
        rw [if_neg hp, if_neg hp, eq_false_of_ne_true ht]
        rfl

/-- C1 amended: a transport or parse failure in a chunk's remote query
is logged inside `extract_historical_data_from_khis` and surfaces only
as an empty batch; it never aborts the run.  Whenever the run reaches
the batch loop (some org units exist and the one-time cleanup does not
raise), every chunk — whatever the outcomes of earlier chunks' queries
— is still queried, and the run reaches its final success log. -/
theorem khis_run_queries_every_chunk (org_units : List String)
    (chunk_size : Nat) (start_date end_date : Dt) (table : String)
    (table_exists delete_ok : Bool) (api : Nat → Except String String)
    (parse_csv : String → Except String (List RawCsvRow))
    (save_ok : Nat → Bool) (hne : org_units ≠ [])
    (hcleanup : (generate_period_strings start_date end_date).isEmpty = true ∨
      table_exists = false ∨ delete_ok = true)
    (i : Nat) (hi : i < (iter_df_chunks org_units chunk_size).length) :
    ExtractEvent.khisQuery i ∈
      (khis_extractor_run org_units chunk_size start_date end_date table
        table_exists delete_ok api parse_csv save_ok).events ∧
    (khis_extractor_run org_units chunk_size start_date end_date table
      table_exists delete_ok api parse_csv save_ok).completed = true := by
  obtain ⟨evs, hevs⟩ := pre_cleanup_ok
    (generate_period_strings start_date end_date) table table_exists
    delete_ok hcleanup
  have hlen : ¬ org_units.length = 0 := by
    intro h
    exact hne (List.eq_nil_of_length_eq_zero h)
  unfold khis_extractor_run
  rw [if_neg hlen, hevs]
  constructor
  · apply List.mem_append_right
    rw [List.mem_flatMap]
    refine ⟨i, List.mem_range.mpr hi, ?_⟩
    simp only [run_batch_events]
    exact List.mem_cons_self _ _
  · rfl

/-- C1 amended, witness: a two-chunk run whose first chunk suffers a
transport failure; chunk index 1 is still queried. -/
theorem khis_run_queries_every_chunk_witness :
    (["f1", "f2"] ≠ ([] : List String) ∧
      ((generate_period_strings ⟨2025, 1, 1⟩ ⟨2025, 1, 31⟩).isEmpty = true ∨
        (true : Bool) = false ∨ (true : Bool) = true) ∧
      1 < (iter_df_chunks ["f1", "f2"] 1).length) ∧
    (ExtractEvent.khisQuery 1 ∈
      (khis_extractor_run ["f1", "f2"] 1 ⟨2025, 1, 1⟩ ⟨2025, 1, 31⟩ "fp_raw"
        true true (fun j => if j = 0 then .error "connection reset"
          else .ok "csv")
        (fun s => if s = "csv" then
          .ok [⟨"d1.to0Pssxkq4S", "F1", 202501, 5⟩] else .error "malformed")
        (fun _ => true)).events ∧
      (khis_extractor_run ["f1", "f2"] 1 ⟨2025, 1, 1⟩ ⟨2025, 1, 31⟩ "fp_raw"
        true true (fun j => if j = 0 then .error "connection reset"
          else .ok "csv")
        (fun s => if s = "csv" then
          .ok [⟨"d1.to0Pssxkq4S", "F1", 202501, 5⟩] else .error "malformed")
        (fun _ => true)).completed = true) :=
  ⟨⟨by decide, Or.inr (Or.inr rfl), by decide⟩,
    khis_run_queries_every_chunk ["f1", "f2"] 1 ⟨2025, 1, 1⟩ ⟨2025, 1, 31⟩
      "fp_raw" true true
      (fun j => if j = 0 then .error "connection reset" else .ok "csv")
      (fun s => if s = "csv" then
        .ok [⟨"d1.to0Pssxkq4S", "F1", 202501, 5⟩] else .error "malformed")
      (fun _ => true) (by decide) (Or.inr (Or.inr rfl)) 1 (by decide)⟩

/-- C1 counterexample: a concrete two-chunk run in which chunk 0's
remote query suffers a transport failure, yet the run does not abort —
chunk 1 is still queried, its rows are appended, and the run completes.
This refutes the claim that after a failing chunk no subsequent chunk
is queried or appended. -/
theorem khis_run_transport_failure_does_not_abort_cex :
    khis_extractor_run ["f1", "f2"] 1 ⟨2025, 1, 1⟩ ⟨2025, 1, 31⟩ "fp_raw"
      true true
      (fun j => if j = 0 then .error "connection reset" else .ok "csv")
      (fun s => if s = "csv" then
        .ok [⟨"d1.to0Pssxkq4S", "F1", 202501, 5⟩] else .error "malformed")
      (fun _ => true) =
    ⟨[.deletePeriods "fp_raw" [⟨2025, 1, 1⟩], .khisQuery 0, .khisQuery 1,
        .appendRows "fp_raw" [⟨"d1", "F1", ⟨2025, 1, 1⟩, 5⟩]], true⟩ := by
  decide

theorem process_two_rod_split_ok (df : List AggRow) (r : ℚ)
    (h0 : 0 ≤ r) (h1 : r ≤ 1) :
    ∃ out, process_two_rod_split df r = .ok out := by
  unfold process_two_rod_split
  rw [if_neg (not_not_intro ⟨h0, h1⟩)]
  by_cases h : (df.filter is_two_rod_service).isEmpty
  · exact ⟨df, by rw [if_pos h]⟩
  · exact ⟨_, by rw [if_neg h]⟩

theorem transform_core_ok (program : Program) (raw_df : List RawObs)
    (org_units : List OrgCountyRow) (elements : List ElementRow) :
    ∃ out, transform_core program raw_df org_units elements = .ok out := by
  unfold transform_core
  cases program
  · exact process_two_rod_split_ok _ 0.8 (by norm_num) (by norm_num)
  · exact ⟨_, rfl⟩

/-- C2: a persistence failure during the LOAD stage does **not**
propagate: `save_df_to_db` catches the write exception and only logs
it, so for every program and every input the pipeline run returns
normally with the final success log reached and nothing written — the
wrapped `<program> pipeline failed` error is never raised for a LOAD
failure.  (This contradicts the claim; the code's own error-wrapping
machinery in `DataTransformationPipeline.run` and the success log line
`"... pipeline complete. Saved to: ..."` show the intent that a failed
save must surface.) -/
theorem pipeline_swallows_load_failure (program : Program)
    (raw_df : List RawObs) (org_units : List OrgCountyRow)
    (elements : List ElementRow) (output_table : String) :
    pipeline_run program (.ok (raw_df, org_units, elements)) false
      output_table = .ok ⟨[], true⟩ := by
  obtain ⟨out, hout⟩ := transform_core_ok program raw_df org_units elements
  unfold pipeline_run pipeline_run_body
  simp [hout, save_df_to_db]

/-- C6: for every in-range ratio, the split replaces each
`2 Rod`/Service row of value V by a Jadelle row of value `V * r` and a
Levoplant row of value `V * (1 - r)` (which sum exactly to V), and the
output contains no `2 Rod`/Service row. -/
theorem process_two_rod_split_spec (df : List AggRow) (r : ℚ)
    (h0 : 0 ≤ r) (h1 : r ≤ 1) :
    process_two_rod_split df r =
      .ok (df.filter (fun row => !is_two_rod_service row) ++
        (df.filter is_two_rod_service).map (jadelle_of r) ++
        (df.filter is_two_rod_service).map (levoplant_of r)) ∧
    (∀ row : AggRow, (jadelle_of r row).analytic = "Jadelle" ∧
      (jadelle_of r row).value = row.value * r ∧
      (levoplant_of r row).analytic = "Levoplant" ∧
      (levoplant_of r row).value = row.value * (1 - r) ∧
      (jadelle_of r row).value + (levoplant_of r row).value = row.value) ∧
    (∀ out, process_two_rod_split df r = .ok out →
      ∀ row ∈ out, ¬(row.analytic = "2 Rod" ∧ row.method = "Service")) := by
  have hmain : process_two_rod_split df r =
      .ok (df.filter (fun row => !is_two_rod_service row) ++
        (df.filter is_two_rod_service).map (jadelle_of r) ++
        (df.filter is_two_rod_service).map (levoplant_of r)) := by
    unfold process_two_rod_split
    rw [if_neg (not_not_intro ⟨h0, h1⟩)]
    by_cases hempty : (df.filter is_two_rod_service).isEmpty
    · rw [if_pos hempty]
      have hnil : df.filter is_two_rod_service = [] :=
        List.isEmpty_iff.mp hempty
      have hall : ∀ row ∈ df, ¬(is_two_rod_service row = true) :=
        List.filter_eq_nil_iff.mp hnil
      rw [hnil]
      simp only [List.map_nil, List.append_nil]
      rw [List.filter_eq_self.mpr]
      intro a ha
      simp [hall a ha]
    · rw [if_neg hempty]
  refine ⟨hmain, ?_, ?_⟩
  · intro row
    refine ⟨rfl, rfl, rfl, rfl, ?_⟩
    show row.value * r + row.value * (1 - r) = row.value
    ring
  · intro out hout row hrow
    rw [hmain] at hout
    have hout' := (Except.ok.injEq _ _).mp hout
    rw [← hout'] at hrow
    intro ⟨ha, hm⟩
    rcases List.mem_append.mp hrow with hrow' | hrow'
    · rcases List.mem_append.mp hrow' with hrow'' | hrow''
      · have := List.of_mem_filter hrow''
        simp only [is_two_rod_service, Bool.not_eq_true', Bool.and_eq_false_iff,
          decide_eq_false_iff_not] at this
        rcases this with h | h
        · exact h hm
        · exact h ha
      · obtain ⟨x, _, rfl⟩ := List.mem_map.mp hrow''
        simp [jadelle_of] at ha
    · obtain ⟨x, _, rfl⟩ := List.mem_map.mp hrow'
      simp [levoplant_of] at ha

/-- C6 witness: a two-row frame with one `2 Rod`/Service row and ratio
0.8. -/
theorem process_two_rod_split_spec_witness :
    ((0 : ℚ) ≤ 0.8 ∧ (0.8 : ℚ) ≤ 1) ∧
    (process_two_rod_split
        [⟨"2 Rod", "Service", "Nairobi", ⟨2025, 1, 1⟩, 10⟩,
          ⟨"COCs", "Service", "Nairobi", ⟨2025, 1, 1⟩, 4⟩] 0.8 =
      .ok ([⟨"2 Rod", "Service", "Nairobi", ⟨2025, 1, 1⟩, 10⟩,
            ⟨"COCs", "Service", "Nairobi", ⟨2025, 1, 1⟩, 4⟩].filter
            (fun row => !is_two_rod_service row) ++
          ([⟨"2 Rod", "Service", "Nairobi", ⟨2025, 1, 1⟩, 10⟩,
            ⟨"COCs", "Service", "Nairobi", ⟨2025, 1, 1⟩, 4⟩].filter
            is_two_rod_service).map (jadelle_of 0.8) ++
          ([⟨"2 Rod", "Service", "Nairobi", ⟨2025, 1, 1⟩, 10⟩,
            ⟨"COCs", "Service", "Nairobi", ⟨2025, 1, 1⟩, 4⟩].filter
            is_two_rod_service).map (levoplant_of 0.8)) ∧
      (∀ row : AggRow, (jadelle_of 0.8 row).analytic = "Jadelle" ∧
        (jadelle_of 0.8 row).value = row.value * 0.8 ∧
        (levoplant_of 0.8 row).analytic = "Levoplant" ∧
        (levoplant_of 0.8 row).value = row.value * (1 - 0.8) ∧
        (jadelle_of 0.8 row).value + (levoplant_of 0.8 row).value =
          row.value) ∧
      (∀ out, process_two_rod_split
          [⟨"2 Rod", "Service", "Nairobi", ⟨2025, 1, 1⟩, 10⟩,
            ⟨"COCs", "Service", "Nairobi", ⟨2025, 1, 1⟩, 4⟩] 0.8 = .ok out →
        ∀ row ∈ out, ¬(row.analytic = "2 Rod" ∧ row.method = "Service"))) :=
  ⟨⟨by norm_num, by norm_num⟩,
    process_two_rod_split_spec
      [⟨"2 Rod", "Service", "Nairobi", ⟨2025, 1, 1⟩, 10⟩,
        ⟨"COCs", "Service", "Nairobi", ⟨2025, 1, 1⟩, 4⟩] 0.8
      (by norm_num) (by norm_num)⟩

theorem chars_lt_asymm : ∀ a b : List Char,
    chars_lt a b = true → chars_lt b a = false := by
  intro a
  induction a with
  | nil =>
      intro b h
      cases b with
      | nil => simp [chars_lt] at h
      | cons c cs => simp [chars_lt]
  | cons x xs ih =>
      intro b h
      cases b with
      | nil => simp [chars_lt] at h
      | cons y ys =>
          simp only [chars_lt] at h ⊢
          split_ifs at h ⊢ <;> first | rfl | omega | exact ih ys h | simp_all

theorem dt_lt_b_asymm (a b : Dt) (h : dt_lt_b a b = true) :
    dt_lt_b b a = false := by
  unfold dt_lt_b at h ⊢
  split_ifs at h ⊢ <;> simp_all <;> omega

theorem agg_row_lt_asymm (a b : AggRow) (h : agg_row_lt a b = true) :
    agg_row_lt b a = false := by
  unfold agg_row_lt str_lt at h ⊢
  split_ifs at h ⊢ <;>
    first
      | rfl
      | exact dt_lt_b_asymm a.period b.period h
      | (exfalso; simp_all [chars_lt_asymm])

theorem agg_row_le_total (a b : AggRow) :
    agg_row_le a b = true ∨ agg_row_le b a = true := by
  unfold agg_row_le
  by_cases h : agg_row_lt b a = true
  · right
    rw [agg_row_lt_asymm b a h]
    rfl
  · left
    rw [Bool.not_eq_true] at h
    rw [h]
    rfl

theorem insert_sorted_head (r : AggRow) (l : List AggRow) :
    (insert_sorted r l).head? = some r ∨ (insert_sorted r l).head? = l.head? := by
  cases l with
  | nil => left; rfl
  | cons x xs =>
      unfold insert_sorted
      by_cases h : agg_row_le r x
      · left; rw [if_pos h]; rfl
      · right; rw [if_neg h]; rfl

theorem is_sorted_cons (x : AggRow) (l : List AggRow) :
    is_sorted_by_key (x :: l) = true ↔
      (∀ y ∈ l.head?, agg_row_le x y = true) ∧ is_sorted_by_key l = true := by
  cases l with
  | nil => simp [is_sorted_by_key]
  | cons y ys =>
      simp only [is_sorted_by_key, Bool.and_eq_true, List.head?_cons,
        Option.mem_def, Option.some.injEq]
      constructor
      · rintro ⟨h1, h2⟩
        exact ⟨fun z hz => hz ▸ h1, h2⟩
      · rintro ⟨h1, h2⟩
        exact ⟨h1 y rfl, h2⟩

theorem insert_sorted_keeps_sorted (r : AggRow) :
    ∀ l, is_sorted_by_key l = true →
      is_sorted_by_key (insert_sorted r l) = true := by
  intro l
  induction l with
  | nil => intro _; rfl
  | cons x xs ih =>
      intro hl
      rw [is_sorted_cons] at hl
      obtain ⟨hhead, hxs⟩ := hl
      unfold insert_sorted
      by_cases h : agg_row_le r x
      · rw [if_pos h, is_sorted_cons]
        refine ⟨?_, (is_sorted_cons x xs).mpr ⟨hhead, hxs⟩⟩
        intro y hy
        simp only [List.head?_cons, Option.mem_def, Option.some.injEq] at hy
        rw [← hy]
        exact h
      · rw [if_neg h, is_sorted_cons]
        have hxr : agg_row_le x r = true := by
          rcases agg_row_le_total r x with h' | h'
          · exact absurd h' h
          · exact h'
        refine ⟨?_, ih hxs⟩
        intro y hy
        rcases insert_sorted_head r xs with hh | hh
        · rw [hh] at hy
          simp only [Option.mem_def, Option.some.injEq] at hy
          rw [← hy]
          exact hxr
        · rw [hh] at hy
          exact hhead y hy

theorem sort_by_key_sorted : ∀ l, is_sorted_by_key (sort_by_key l) = true := by
  intro l
  induction l with
  | nil => rfl
  | cons x xs ih => exact insert_sorted_keeps_sorted x (sort_by_key xs) ih

/-- C7 amended: the **county aggregate** produced by
`_apply_transformations` is sorted by `(analytic, method, org_unit,
period)`; the pipeline then concatenates the national roll-up (and, for
FP, the split rows) after the county block without re-sorting, so the
final dataset as a whole is not in sorted order. -/
theorem apply_transformations_sorted (raw_df : List RawObs)
    (org_units : List OrgCountyRow) (elements : List ElementRow) :
    is_sorted_by_key (apply_transformations raw_df org_units elements) =
      true := by
  unfold apply_transformations
  exact sort_by_key_sorted _

/-- C7 counterexample: a one-facility MNCH run whose final dataset is
the county row (`org_unit = "Nairobi"`) followed by the national row
(`org_unit = "Kenya"`); since "Kenya" sorts before "Nairobi", the final
output of the run is **not** ordered by `(analytic, method, org_unit,
period)`. -/
theorem transform_core_output_not_sorted_cex :
    (transform_core Program.MNCH
        [⟨"GOFxghdlf5n", "F1", ⟨2025, 1, 1⟩, 3⟩]
        [⟨"F1", "Nairobi"⟩]
        [⟨"GOFxghdlf5n", "MOH 647 Chlorhexidine gel"⟩]).map
      is_sorted_by_key = .ok false := by
  decide

/-- C8 amended: the adjustment multiplies a Service row's value by the
per-analytic factor exactly when the analytic name is one of the four
listed ones — the condition is only `method == "Service"` plus table
membership; the run's program is not consulted (the same expression
runs for FP and MNCH pipelines). -/
theorem apply_service_adjustment_spec :
    (∀ (method analytic : String) (v : ℚ),
      apply_service_adjustment method analytic v =
        if method = "Service" ∧ (analytic = "COCs" ∨ analytic = "POPs" ∨
            analytic = "Female Condoms" ∨ analytic = "Male Condoms") then
          v * fp_service_adjustments analytic
        else v) ∧
    fp_service_adjustments "COCs" = 1.25 ∧
    fp_service_adjustments "POPs" = 0.5 ∧
    fp_service_adjustments "Female Condoms" = 10.0 ∧
    fp_service_adjustments "Male Condoms" = 10.0 ∧
    (∀ analytic : String,
      analytic ∉ ["COCs", "POPs", "Female Condoms", "Male Condoms"] →
        fp_service_adjustments analytic = 1.0) := by
  have hunlisted : ∀ analytic : String,
      analytic ∉ ["COCs", "POPs", "Female Condoms", "Male Condoms"] →
        fp_service_adjustments analytic = 1.0 := by
    intro analytic h
    simp only [List.mem_cons, List.not_mem_nil, or_false, not_or] at h
    obtain ⟨h1, h2, h3, h4⟩ := h
    simp [fp_service_adjustments, h1, h2, h3, h4]
  refine ⟨?_, rfl, rfl, rfl, rfl, hunlisted⟩
  intro method analytic v
  by_cases hm : method = "Service"
  · by_cases hl : analytic = "COCs" ∨ analytic = "POPs" ∨
        analytic = "Female Condoms" ∨ analytic = "Male Condoms"
    · rw [if_pos ⟨hm, hl⟩]
      unfold apply_service_adjustment
      rw [if_pos hm]
    · rw [if_neg (by tauto)]
      unfold apply_service_adjustment
      rw [if_pos hm, hunlisted analytic (by simpa using hl)]
      norm_num
  · rw [if_neg (by tauto)]
    unfold apply_service_adjustment
    rw [if_neg hm]

/-- C8 amended witness: an unlisted analytic keeps factor 1. -/
theorem apply_service_adjustment_spec_witness :
    ("DMPA-IM" : String) ∉ ["COCs", "POPs", "Female Condoms", "Male Condoms"] ∧
    fp_service_adjustments "DMPA-IM" = 1.0 :=
  ⟨by decide, apply_service_adjustment_spec.2.2.2.2.2 "DMPA-IM" (by decide)⟩

/-- C8 counterexample: a run whose program is MNCH still multiplies a
Service row of a listed analytic — a raw row of value 8 mapping to
"COCs"/Service comes out of the MNCH pipeline with value 10 (× 1.25),
refuting "all rows of an MNCH run keep their value unchanged". -/
theorem mnch_run_adjusts_service_value_cex :
    transform_core Program.MNCH
      [⟨"BQmcVE8fex4", "F1", ⟨2025, 1, 1⟩, 8⟩]
      [⟨"F1", "Nairobi"⟩]
      [⟨"BQmcVE8fex4", "MOH 711 COCs"⟩] =
    .ok [⟨"COCs", "Service", "Nairobi", ⟨2025, 1, 1⟩, 10⟩,
         ⟨"COCs", "Service", "Kenya", ⟨2025, 1, 1⟩, 10⟩] := by
  have hmethod : derive_method "MOH 711 COCs" = "Service" := by decide
  have hmap : analytic_id_map "BQmcVE8fex4" = "COCs" := by decide
  simp [transform_core, apply_transformations, generate_national_aggregates,
    group_sum_by_key, dedup_first, agg_key, sort_by_key, insert_sorted,
    hmethod, hmap, apply_service_adjustment, fp_service_adjustments]
  norm_num

/-- The ancestor lookup realised by the four inner joins: find the
(unique) parent at each level, or fail. -/
def chain_opt (l4 l3 l2 l1 : List OrgRow) (f : OrgRow) : Option HierRow :=
  (l4.find? (fun w => w.id = f.parent_id)).bind fun w =>
    (l3.find? (fun s => s.id = w.parent_id)).bind fun s =>
      (l2.find? (fun c => c.id = s.parent_id)).bind fun c =>
        (l1.find? (fun n => n.id = c.parent_id)).map fun n =>
          (⟨f, w, s, c, n⟩ : HierRow)

theorem filter_id_eq_find_toList (m : List OrgRow)
    (h : (m.map (fun r => r.id)).Nodup) (k : String) :
    m.filter (fun b => b.id = k) = (m.find? (fun b => b.id = k)).toList := by
  induction m with
  | nil => rfl
  | cons b bs ih =>
      rw [List.map_cons, List.nodup_cons] at h
      obtain ⟨hb, hbs⟩ := h
      by_cases hbk : b.id = k
      · rw [List.filter_cons_of_pos (by simpa using hbk),
          List.find?_cons_of_pos _ (by simpa using hbk)]
        have : bs.filter (fun b => b.id = k) = [] := by
          rw [List.filter_eq_nil_iff]
          intro a ha
          simp only [decide_eq_true_eq]
          intro hak
          exact hb (List.mem_map.mpr ⟨a, ha, by rw [hak, hbk]⟩)
        rw [this]
        rfl
      · rw [List.filter_cons_of_neg (by simpa using hbk),
          List.find?_cons_of_neg _ (by simpa using hbk)]
        exact ih hbs

theorem find_id_eq_of_unique (m : List OrgRow)
    (h : (m.map (fun r => r.id)).Nodup) (b : OrgRow) (hb : b ∈ m)
    (k : String) (hk : b.id = k) :
    m.find? (fun b => b.id = k) = some b := by
  have hsome : (m.find? (fun b => b.id = k)).isSome = true :=
    List.find?_isSome.mpr ⟨b, hb, by simpa using hk⟩
  obtain ⟨b', hb'⟩ := Option.isSome_iff_exists.mp hsome
  have hmem : b' ∈ m := List.mem_of_find?_eq_some hb'
  have hpred : b'.id = k := by simpa using List.find?_some hb'
  have : b' = b :=
    List.inj_on_of_nodup_map h hmem hb (by rw [hpred, hk])
  rw [hb', this]

theorem filter_flatMap_unique (m : List OrgRow)
    (h : (m.map (fun r => r.id)).Nodup) (k : String) {β : Type}
    (G : OrgRow → List β) :
    (m.filter (fun b => b.id = k)).flatMap G =
      match m.find? (fun b => b.id = k) with
      | none => []
      | some b => G b := by
  rw [filter_id_eq_find_toList m h k]
  cases m.find? (fun b => b.id = k) <;> simp

theorem flatMap_toList_eq_filterMap {α β : Type} (g : α → Option β) :
    ∀ l : List α, (l.flatMap fun a => (g a).toList) = l.filterMap g := by
  intro l
  induction l with
  | nil => rfl
  | cons a as ih =>
      rw [List.flatMap_cons, List.filterMap_cons, ih]
      cases g a <;> simp

theorem length_filterMap_eq_countP {α β : Type} (g : α → Option β) :
    ∀ l : List α, (l.filterMap g).length = l.countP (fun a => (g a).isSome) := by
  intro l
  induction l with
  | nil => rfl
  | cons a as ih =>
      rw [List.filterMap_cons, List.countP_cons]
      cases h : g a
      · simp [ih, h]
      · simp [ih, h]

theorem inner_join_eq_chain_opt (l4 l3 l2 l1 : List OrgRow)
    (h4 : (l4.map (fun r => r.id)).Nodup) (h3 : (l3.map (fun r => r.id)).Nodup)
    (h2 : (l2.map (fun r => r.id)).Nodup) (h1 : (l1.map (fun r => r.id)).Nodup)
    (f : OrgRow) :
    ((l4.filter (fun w => w.id = f.parent_id)).flatMap fun w =>
      (l3.filter (fun s => s.id = w.parent_id)).flatMap fun s =>
        (l2.filter (fun c => c.id = s.parent_id)).flatMap fun c =>
          (l1.filter (fun n => n.id = c.parent_id)).map fun n =>
            (⟨f, w, s, c, n⟩ : HierRow)) =
      (chain_opt l4 l3 l2 l1 f).toList := by
  rw [filter_flatMap_unique l4 h4]
  unfold chain_opt
  cases hf4 : l4.find? (fun w => w.id = f.parent_id) with
  | none => rfl
  | some w =>
      simp only [Option.some_bind]
      rw [filter_flatMap_unique l3 h3]
      cases hf3 : l3.find? (fun s => s.id = w.parent_id) with
      | none => rfl
      | some s =>
          simp only [Option.some_bind]
          rw [filter_flatMap_unique l2 h2]
          cases hf2 : l2.find? (fun c => c.id = s.parent_id) with
          | none => rfl
          | some c =>
              simp only [Option.some_bind]
              rw [filter_id_eq_find_toList l1 h1]
              cases hf1 : l1.find? (fun n => n.id = c.parent_id) with
              | none => rfl
              | some n => rfl

theorem make_orgunits_hierarchy_eq_filterMap (df : List OrgRow)
    (h : orgunits_well_formed df) :
    make_orgunits_hierarchy df =
      (df.filter (fun r => r.level = 5)).filterMap
        (chain_opt (df.filter (fun r => r.level = 4))
          (df.filter (fun r => r.level = 3))
          (df.filter (fun r => r.level = 2))
          (df.filter (fun r => r.level = 1))) := by
  obtain ⟨h4, h3, h2, h1⟩ := h
  simp only [make_orgunits_hierarchy]
  rw [← flatMap_toList_eq_filterMap]
  congr 1
  funext f
  exact inner_join_eq_chain_opt _ _ _ _ h4 h3 h2 h1 f

theorem chain_opt_isSome_iff (df : List OrgRow)
    (h : orgunits_well_formed df) (f : OrgRow) :
    (chain_opt (df.filter (fun r => r.level = 4))
      (df.filter (fun r => r.level = 3))
      (df.filter (fun r => r.level = 2))
      (df.filter (fun r => r.level = 1)) f).isSome = true ↔
    chain_resolves df f := by
  obtain ⟨h4, h3, h2, h1⟩ := h
  unfold chain_opt chain_resolves
  constructor
  · intro hsome
    cases hf4 : (df.filter (fun r => r.level = 4)).find?
        (fun w => w.id = f.parent_id) with
    | none => rw [hf4] at hsome; simp at hsome
    | some w =>
        rw [hf4] at hsome
        simp only [Option.some_bind] at hsome
        have hw := List.mem_filter.mp (List.mem_of_find?_eq_some hf4)
        have hwid : w.id = f.parent_id := by
          simpa using List.find?_some hf4
        cases hf3 : (df.filter (fun r => r.level = 3)).find?
            (fun s => s.id = w.parent_id) with
        | none => rw [hf3] at hsome; simp at hsome
        | some s =>
            rw [hf3] at hsome
            simp only [Option.some_bind] at hsome
            have hs := List.mem_filter.mp (List.mem_of_find?_eq_some hf3)
            have hsid : s.id = w.parent_id := by
              simpa using List.find?_some hf3
            cases hf2 : (df.filter (fun r => r.level = 2)).find?
                (fun c => c.id = s.parent_id) with
            | none => rw [hf2] at hsome; simp at hsome
            | some c =>
                rw [hf2] at hsome
                simp only [Option.some_bind] at hsome
                have hc := List.mem_filter.mp (List.mem_of_find?_eq_some hf2)
                have hcid : c.id = s.parent_id := by
                  simpa using List.find?_some hf2
                cases hf1 : (df.filter (fun r => r.level = 1)).find?
                    (fun n => n.id = c.parent_id) with
                | none => rw [hf1] at hsome; simp at hsome
                | some n =>
                    have hn := List.mem_filter.mp
                      (List.mem_of_find?_eq_some hf1)
                    have hnid : n.id = c.parent_id := by
                      simpa using List.find?_some hf1
                    exact ⟨w, hw.1, by simpa using hw.2, hwid,
                      s, hs.1, by simpa using hs.2, hsid,
                      c, hc.1, by simpa using hc.2, hcid,
                      n, hn.1, by simpa using hn.2, hnid⟩
  · rintro ⟨w, hwmem, hwlvl, hwid, s, hsmem, hslvl, hsid, c, hcmem, hclvl,
      hcid, n, hnmem, hnlvl, hnid⟩
    rw [find_id_eq_of_unique _ h4 w
        (List.mem_filter.mpr ⟨hwmem, by simpa using hwlvl⟩) _ hwid]
    simp only [Option.some_bind]
    rw [find_id_eq_of_unique _ h3 s
        (List.mem_filter.mpr ⟨hsmem, by simpa using hslvl⟩) _ hsid]
    simp only [Option.some_bind]
    rw [find_id_eq_of_unique _ h2 c
        (List.mem_filter.mpr ⟨hcmem, by simpa using hclvl⟩) _ hcid]
    simp only [Option.some_bind]
    rw [find_id_eq_of_unique _ h1 n
        (List.mem_filter.mpr ⟨hnmem, by simpa using hnlvl⟩) _ hnid]
    rfl

theorem make_orgunits_hierarchy_count (df : List OrgRow)
    (h : orgunits_well_formed df) :
    (make_orgunits_hierarchy df).length =
      (df.filter (fun r => r.level = 5)).countP
        (fun f => decide (chain_resolves df f)) := by
  rw [make_orgunits_hierarchy_eq_filterMap df h,
    length_filterMap_eq_countP]
  apply List.countP_congr
  intro f _
  simp only [decide_eq_true_eq]
  constructor
  · intro hf
    exact (chain_opt_isSome_iff df h f).mp hf
  · intro hf
    exact (chain_opt_isSome_iff df h f).mpr hf

theorem find_id_append_remove (A3 B3 : List OrgRow) (x : OrgRow)
    (h : ((A3 ++ x :: B3).map (fun r => r.id)).Nodup) (k : String) :
    (A3 ++ B3).find? (fun s => s.id = k) =
      if k = x.id then none else (A3 ++ x :: B3).find? (fun s => s.id = k) := by
  rw [List.map_append, List.map_cons, List.nodup_append] at h
  obtain ⟨hA, hxB, hdisj⟩ := h
  rw [List.nodup_cons] at hxB
  obtain ⟨hxnot, hB⟩ := hxB
  by_cases hk : k = x.id
  · rw [if_pos hk]
    rw [List.find?_eq_none]
    intro a ha
    simp only [decide_eq_true_eq]
    intro hak
    rcases List.mem_append.mp ha with ha' | ha'
    · exact hdisj (List.mem_map.mpr ⟨a, ha', rfl⟩)
        (by rw [hak.trans hk]; exact List.mem_cons_self _ _)
    · exact hxnot (List.mem_map.mpr ⟨a, ha', hak.trans hk⟩)
  · rw [if_neg hk, List.find?_append, List.find?_append,
      List.find?_cons_of_neg _ (by simp; intro hxk; exact hk (by rw [hxk]))]

theorem chain_opt_remove (l4 l2 l1 A3 B3 : List OrgRow) (x : OrgRow)
    (h3 : ((A3 ++ x :: B3).map (fun r => r.id)).Nodup) (f : OrgRow) :
    chain_opt l4 (A3 ++ B3) l2 l1 f =
      (chain_opt l4 (A3 ++ x :: B3) l2 l1 f).bind fun h =>
        if decide (h.sub_county.id = x.id) = true then none else some h := by
  unfold chain_opt
  cases hf4 : l4.find? (fun w => w.id = f.parent_id) with
  | none => rfl
  | some w =>
      simp only [Option.some_bind]
      rw [find_id_append_remove A3 B3 x h3 w.parent_id]
      by_cases hk : w.parent_id = x.id
      · rw [if_pos hk]
        rw [find_id_eq_of_unique (A3 ++ x :: B3) h3 x
          (List.mem_append.mpr (Or.inr (List.mem_cons_self _ _))) _ hk.symm]
        simp only [Option.none_bind, Option.some_bind]
        cases hf2 : l2.find? (fun c => c.id = x.parent_id) with
        | none => rfl
        | some c =>
            simp only [Option.some_bind]
            cases hf1 : l1.find? (fun n => n.id = c.parent_id) with
            | none => rfl
            | some n => simp
      · rw [if_neg hk]
        cases hf3 : (A3 ++ x :: B3).find? (fun s => s.id = w.parent_id) with
        | none => rfl
        | some s =>
            simp only [Option.some_bind]
            have hsid : s.id = w.parent_id := by
              simpa using List.find?_some hf3
            have hsx : ¬ s.id = x.id := by
              rw [hsid]
              exact hk
            cases hf2 : l2.find? (fun c => c.id = s.parent_id) with
            | none => rfl
            | some c =>
                simp only [Option.some_bind]
                cases hf1 : l1.find? (fun n => n.id = c.parent_id) with
                | none => rfl
                | some n => simp [hsx]

theorem filterMap_match_eq_filter {α β : Type} (g : α → Option β)
    (p : β → Bool) :
    ∀ l : List α,
      (l.filterMap (fun a => (g a).bind fun h =>
        if p h = true then none else some h)) =
      (l.filterMap g).filter (fun h => !p h) := by
  intro l
  induction l with
  | nil => rfl
  | cons a as ih =>
      rw [List.filterMap_cons, List.filterMap_cons]
      cases hga : g a with
      | none => simpa using ih
      | some h =>
          by_cases hp : p h
          · simp [hp, ih]
          · simp [hp, ih]

theorem make_orgunits_hierarchy_remove_level3 (A B : List OrgRow)
    (x : OrgRow) (hwf : orgunits_well_formed (A ++ x :: B))
    (hx : x.level = 3) :
    make_orgunits_hierarchy (A ++ B) =
      (make_orgunits_hierarchy (A ++ x :: B)).filter
        (fun h => !(h.sub_county.id = x.id)) := by
  have e5 : (A ++ x :: B).filter (fun r => r.level = 5) =
      (A ++ B).filter (fun r => r.level = 5) := by
    simp [List.filter_append, List.filter_cons, hx]
  have e4 : (A ++ x :: B).filter (fun r => r.level = 4) =
      (A ++ B).filter (fun r => r.level = 4) := by
    simp [List.filter_append, List.filter_cons, hx]
  have e2 : (A ++ x :: B).filter (fun r => r.level = 2) =
      (A ++ B).filter (fun r => r.level = 2) := by
    simp [List.filter_append, List.filter_cons, hx]
  have e1 : (A ++ x :: B).filter (fun r => r.level = 1) =
      (A ++ B).filter (fun r => r.level = 1) := by
    simp [List.filter_append, List.filter_cons, hx]
  have e3 : (A ++ x :: B).filter (fun r => r.level = 3) =
      A.filter (fun r => r.level = 3) ++
        x :: B.filter (fun r => r.level = 3) := by
    simp [List.filter_append, List.filter_cons, hx]
  have e3' : (A ++ B).filter (fun r => r.level = 3) =
      A.filter (fun r => r.level = 3) ++ B.filter (fun r => r.level = 3) :=
    List.filter_append _ _
  obtain ⟨h4, h3, h2, h1⟩ := hwf
  have h3x : ((A.filter (fun r => r.level = 3) ++
      x :: B.filter (fun r => r.level = 3)).map (fun r => r.id)).Nodup := by
    rw [← e3]
    exact h3
  have hwf' : orgunits_well_formed (A ++ B) := by
    refine ⟨by rw [← e4]; exact h4, ?_, by rw [← e2]; exact h2,
      by rw [← e1]; exact h1⟩
    rw [e3']
    refine List.Nodup.sublist ?_ h3x
    exact (((List.sublist_cons_self x _).append_left _).map _)
  rw [make_orgunits_hierarchy_eq_filterMap _ hwf',
    make_orgunits_hierarchy_eq_filterMap _ ⟨h4, h3, h2, h1⟩,
    ← filterMap_match_eq_filter
      (chain_opt ((A ++ x :: B).filter (fun r => r.level = 4))
        ((A ++ x :: B).filter (fun r => r.level = 3))
        ((A ++ x :: B).filter (fun r => r.level = 2))
        ((A ++ x :: B).filter (fun r => r.level = 1)))
      (fun h => decide (h.sub_county.id = x.id)),
    e5, e4, e2, e1, e3, e3']
  congr 1
  funext f
  exact chain_opt_remove ((A ++ B).filter (fun r => r.level = 4))
    ((A ++ B).filter (fun r => r.level = 2))
    ((A ++ B).filter (fun r => r.level = 1))
    (A.filter (fun r => r.level = 3)) (B.filter (fun r => r.level = 3))
    x h3x f

/-- C9: for an id-unique (well-formed) organisation-unit table, (a) the
flattener's output row count equals the number of level-5 rows whose
ancestor chain resolves completely through levels 4, 3, 2, 1 via
`parent_id`, and (b) removing a single level-3 row removes exactly the
output rows descending from it (those whose sub-county is that row) and
nothing else. -/
theorem make_orgunits_hierarchy_spec :
    (∀ df : List OrgRow, orgunits_well_formed df →
      (make_orgunits_hierarchy df).length =
        (df.filter (fun r => r.level = 5)).countP
          (fun f => decide (chain_resolves df f))) ∧
    (∀ (A B : List OrgRow) (x : OrgRow),
      orgunits_well_formed (A ++ x :: B) → x.level = 3 →
      make_orgunits_hierarchy (A ++ B) =
        (make_orgunits_hierarchy (A ++ x :: B)).filter
          (fun h => !(h.sub_county.id = x.id))) :=
  ⟨make_orgunits_hierarchy_count, make_orgunits_hierarchy_remove_level3⟩

/-- C9 witness: a seven-row tree (one country, one county, one
sub-county, one ward, two linked facilities, one orphan facility),
removing its single level-3 row. -/
theorem make_orgunits_hierarchy_spec_witness :
    (orgunits_well_formed
        ([(⟨"KE", "Kenya", "", 1, "c0"⟩ : OrgRow), ⟨"C1", "Nairobi", "KE", 2, "c1"⟩] ++
          ⟨"S1", "Westlands", "C1", 3, "s1"⟩ ::
          [(⟨"W1", "Parklands", "S1", 4, "w1"⟩ : OrgRow), ⟨"F1", "Clinic A", "W1", 5, "f1"⟩,
            ⟨"F2", "Clinic B", "W1", 5, "f2"⟩,
            ⟨"F3", "Orphan", "WX", 5, "f3"⟩]) ∧
      (⟨"S1", "Westlands", "C1", 3, "s1"⟩ : OrgRow).level = 3) ∧
    ((make_orgunits_hierarchy
        ([(⟨"KE", "Kenya", "", 1, "c0"⟩ : OrgRow), ⟨"C1", "Nairobi", "KE", 2, "c1"⟩] ++
          ⟨"S1", "Westlands", "C1", 3, "s1"⟩ ::
          [(⟨"W1", "Parklands", "S1", 4, "w1"⟩ : OrgRow), ⟨"F1", "Clinic A", "W1", 5, "f1"⟩,
            ⟨"F2", "Clinic B", "W1", 5, "f2"⟩,
            ⟨"F3", "Orphan", "WX", 5, "f3"⟩])).length =
      (([(⟨"KE", "Kenya", "", 1, "c0"⟩ : OrgRow), ⟨"C1", "Nairobi", "KE", 2, "c1"⟩] ++
          ⟨"S1", "Westlands", "C1", 3, "s1"⟩ ::
          [(⟨"W1", "Parklands", "S1", 4, "w1"⟩ : OrgRow), ⟨"F1", "Clinic A", "W1", 5, "f1"⟩,
            ⟨"F2", "Clinic B", "W1", 5, "f2"⟩,
            ⟨"F3", "Orphan", "WX", 5, "f3"⟩]).filter
          (fun r => r.level = 5)).countP
        (fun f => decide (chain_resolves
          ([(⟨"KE", "Kenya", "", 1, "c0"⟩ : OrgRow), ⟨"C1", "Nairobi", "KE", 2, "c1"⟩] ++
            ⟨"S1", "Westlands", "C1", 3, "s1"⟩ ::
            [(⟨"W1", "Parklands", "S1", 4, "w1"⟩ : OrgRow),
              ⟨"F1", "Clinic A", "W1", 5, "f1"⟩,
              ⟨"F2", "Clinic B", "W1", 5, "f2"⟩,
              ⟨"F3", "Orphan", "WX", 5, "f3"⟩]) f)) ∧
      make_orgunits_hierarchy
        ([(⟨"KE", "Kenya", "", 1, "c0"⟩ : OrgRow), ⟨"C1", "Nairobi", "KE", 2, "c1"⟩] ++
          [(⟨"W1", "Parklands", "S1", 4, "w1"⟩ : OrgRow), ⟨"F1", "Clinic A", "W1", 5, "f1"⟩,
            ⟨"F2", "Clinic B", "W1", 5, "f2"⟩,
            ⟨"F3", "Orphan", "WX", 5, "f3"⟩]) =
      (make_orgunits_hierarchy
        ([(⟨"KE", "Kenya", "", 1, "c0"⟩ : OrgRow), ⟨"C1", "Nairobi", "KE", 2, "c1"⟩] ++
          ⟨"S1", "Westlands", "C1", 3, "s1"⟩ ::
          [(⟨"W1", "Parklands", "S1", 4, "w1"⟩ : OrgRow), ⟨"F1", "Clinic A", "W1", 5, "f1"⟩,
            ⟨"F2", "Clinic B", "W1", 5, "f2"⟩,
            ⟨"F3", "Orphan", "WX", 5, "f3"⟩])).filter
        (fun h => !(h.sub_county.id = "S1"))) :=
  ⟨⟨by decide, rfl⟩,
    make_orgunits_hierarchy_spec.1 _ (by decide),
    make_orgunits_hierarchy_spec.2
      [(⟨"KE", "Kenya", "", 1, "c0"⟩ : OrgRow), ⟨"C1", "Nairobi", "KE", 2, "c1"⟩]
      [(⟨"W1", "Parklands", "S1", 4, "w1"⟩ : OrgRow), ⟨"F1", "Clinic A", "W1", 5, "f1"⟩,
        ⟨"F2", "Clinic B", "W1", 5, "f2"⟩, ⟨"F3", "Orphan", "WX", 5, "f3"⟩]
      ⟨"S1", "Westlands", "C1", 3, "s1"⟩ (by decide) rfl⟩
